import Mathlib

/-!
Shallow embedding of the snake game core (src/snake_game.py).

Modelling conventions:
- Python tuples (x, y) become `Pos := Int × Int`.
- Python ints are `Int` (arbitrary precision, as in Python).
- `random.randint(0, GRID_WIDTH - 1)` samples are modelled by an oracle
  stream `rng : Nat → Nat × Nat`; the k-th sample cell is
  `(rng k).1 % GRID_WIDTH, (rng k).2 % GRID_HEIGHT`, which ranges over
  exactly the in-bounds cells as `randint` does.
- The unbounded `while True` loop of `spawn_food` is given explicit fuel
  and returns `Option Pos`; `none` means the loop did not finish within
  the fuel.  Termination statements quantify over the fuel.
- File writes in `save_highscore` are modelled as succeeding, so the
  collision branch of `game_tick` sets `highscore := max highscore score`
  exactly as the Python does after a successful dump.
- JSON values that the save/load code manipulates are modelled by the
  inductive `J` (integers and arrays, the shapes `save_game` produces and
  `load_game` inspects).  A stored record is five optional fields, `none`
  standing for a missing key (Python `KeyError`).  Shapes that Python's
  `tuple(...)` would accept but that are not integer pairs (and non-integer
  score/level values, which Python would assign and crash on later) are
  modelled as load failure at that field.
-/

abbrev Pos := Int × Int

def GRID_WIDTH : Int := 30

def GRID_HEIGHT : Int := 20

def LEVELS : List (Int × Int) := [(0, 5), (50, 8), (100, 12), (150, 15)]

/-- Session state: the mutable fields of the `SnakeGame` window object that
the game logic touches. -/
structure GameState where
  snake : List Pos
  direction : Pos
  food : Pos
  score : Int
  level_index : Int
  moves_per_second : Int
  tick_accumulator : ℚ
  game_over : Bool
  paused : Bool
  highscore : Int
deriving DecidableEq, Repr

/-- Cell validity: 0 ≤ x < GRID_WIDTH and 0 ≤ y < GRID_HEIGHT. -/
def inBoundsCell (p : Pos) : Prop :=
  0 ≤ p.1 ∧ p.1 < GRID_WIDTH ∧ 0 ≤ p.2 ∧ p.2 < GRID_HEIGHT

instance (p : Pos) : Decidable (inBoundsCell p) := by
  unfold inBoundsCell; infer_instance

/-- One sample of the random cell generator:
`(random.randint(0, GRID_WIDTH - 1), random.randint(0, GRID_HEIGHT - 1))`. -/
def sample (ab : Nat × Nat) : Pos :=
  ((ab.1 % 30 : Nat), (ab.2 % 20 : Nat))

/-- The body of spawn_food's while-loop, with the current sample index and
explicit fuel. -/
def spawn_aux (snake : List Pos) (rng : Nat → Nat × Nat) : Nat → Nat → Option Pos
  | _, 0 => none
  | i, fuel + 1 =>
    let p := sample (rng i)
    if p ∈ snake then spawn_aux snake rng (i + 1) fuel else some p

/-- spawn_food: sample random cells until one not on the snake is found. -/
def spawn_food (snake : List Pos) (rng : Nat → Nat × Nat) (fuel : Nat) : Option Pos :=
  spawn_aux snake rng 0 fuel

/-- The scan of check_level_up:
`for idx in reversed(range(len(LEVELS))): if self.score >= LEVELS[idx]["score"]: ... break`,
returning the index at which the loop breaks. -/
def findLevel (score : Int) : Option Nat :=
  (List.range LEVELS.length).reverse.find? (fun idx => decide ((LEVELS.getD idx ((0 : Int), (0 : Int))).1 ≤ score))

/-- check_level_up: adopt the found level when it differs from the current
one, updating the speed. -/
def check_level_up (s : GameState) : GameState :=
  match findLevel s.score with
  | none => s
  | some idx =>
    if (idx : Int) = s.level_index then s
    else { s with level_index := (idx : Int),
                  moves_per_second := (LEVELS.getD idx ((0 : Int), (0 : Int))).2 }

/-- Collision test of game_tick, verbatim from the source:
`hx < 0 or hx >= GRID_WIDTH or hy < 0 or hy >= GRID_HEIGHT or new_head in self.snake`. -/
def collides (nh : Pos) (snake : List Pos) : Prop :=
  nh.1 < 0 ∨ GRID_WIDTH ≤ nh.1 ∨ nh.2 < 0 ∨ GRID_HEIGHT ≤ nh.2 ∨ nh ∈ snake

instance (nh : Pos) (snake : List Pos) : Decidable (collides nh snake) := by
  unfold collides; infer_instance

/-- game_tick.  `none` models a Python crash or a spawn loop that did not
finish within the fuel: an empty snake would raise IndexError at
`self.snake[0]` (never reachable), and the food-eaten branch needs the
spawn loop to terminate. -/
def game_tick (rng : Nat → Nat × Nat) (fuel : Nat) (s : GameState) : Option GameState :=
  match s.snake with
  | [] => none
  | (hx, hy) :: _ =>
    let nh : Pos := (hx + s.direction.1, hy + s.direction.2)
    if collides nh s.snake then
      some { s with game_over := true, highscore := max s.highscore s.score }
    else
      let s1 := { s with snake := nh :: s.snake }
      if nh = s.food then
        match spawn_food s1.snake rng fuel with
        | none => none
        | some f => some (check_level_up { s1 with score := s1.score + 10, food := f })
      else
        some { s1 with snake := s1.snake.dropLast }

/-- Arrow keys, the direction-changing inputs of on_key_press. -/
inductive ArrowKey where
  | up | down | left | right
deriving DecidableEq, Repr

/-- Direction requested by an arrow key (arcade's y axis points up). -/
def keyDir : ArrowKey → Pos
  | .up => (0, 1)
  | .down => (0, -1)
  | .left => (-1, 0)
  | .right => (1, 0)

/-- The arrow-key branches of on_key_press: adopt the requested direction
unless the current direction is its exact opposite. -/
def dirAfterKey (cur : Pos) : ArrowKey → Pos
  | .up => if cur ≠ (0, -1) then (0, 1) else cur
  | .down => if cur ≠ (0, 1) then (0, -1) else cur
  | .left => if cur ≠ (1, 0) then (-1, 0) else cur
  | .right => if cur ≠ (-1, 0) then (1, 0) else cur

/-- Componentwise negation, the exact reverse of a direction. -/
def negPos (p : Pos) : Pos := (-p.1, -p.2)

/-- Arrow-key press acting on the session. -/
def pressArrow (s : GameState) (k : ArrowKey) : GameState :=
  { s with direction := dirAfterKey s.direction k }

/-- SPACE: toggle pause. -/
def togglePause (s : GameState) : GameState :=
  { s with paused := !s.paused }

/-- reset_game: single-segment snake at the grid centre, fresh food,
score 0, level 0, speed LEVELS[0].speed, cleared flags; `storedHigh` is
whatever load_highscore read from disk (0 when absent/unreadable). -/
def reset_game (storedHigh : Int) (rng : Nat → Nat × Nat) (fuel : Nat) : Option GameState :=
  (spawn_food [((15 : Int), (10 : Int))] rng fuel).map fun f =>
    { snake := [((15 : Int), (10 : Int))]
      direction := (1, 0)
      food := f
      score := 0
      level_index := 0
      moves_per_second := 5
      tick_accumulator := 0
      game_over := false
      paused := false
      highscore := storedHigh }

/-- JSON values the persistence code reads and writes. -/
inductive J where
  | num (n : Int)
  | arr (l : List J)

/-- A stored save record: the five keys save_game writes; `none` is a
missing key. -/
structure SaveData where
  snake : Option J
  direction : Option J
  food : Option J
  score : Option J
  level_index : Option J

/-- Parse `tuple(v)` as a cell: an array of exactly two integers. -/
def parsePos : J → Option Pos
  | .arr [.num x, .num y] => some (x, y)
  | _ => none

/-- Parse the cells of a list comprehension left to right, aborting at the
first failure. -/
def parseCells : List J → Option (List Pos)
  | [] => some []
  | v :: rest =>
    match parsePos v, parseCells rest with
    | some p, some tl => some (p :: tl)
    | _, _ => none

/-- Parse `[tuple(p) for p in v]`. -/
def parseSnake : J → Option (List Pos)
  | .arr l => parseCells l
  | _ => none

/-- Parse an integer field. -/
def parseNum : J → Option Int
  | .num n => some n
  | _ => none

/-- Python's `LEVELS[n]["speed"]` under list indexing (negative indices
count from the end; anything else raises IndexError). -/
def levelSpeed (n : Int) : Option Int :=
  if 0 ≤ n ∧ n < 4 then some (LEVELS.getD n.toNat ((0 : Int), (0 : Int))).2
  else if -4 ≤ n ∧ n < 0 then some (LEVELS.getD (n + 4).toNat ((0 : Int), (0 : Int))).2
  else none

/-- load_game: fields are assigned to the live session one at a time; the
first missing/malformed field aborts the remaining assignments (the Python
`except` only prints), leaving earlier assignments in place. -/
def load_game (d : SaveData) (s : GameState) : GameState :=
  match d.snake.bind parseSnake with
  | none => s
  | some sn =>
    let s2 := { s with snake := sn }
    match d.direction.bind parsePos with
    | none => s2
    | some dir =>
      let s3 := { s2 with direction := dir }
      match d.food.bind parsePos with
      | none => s3
      | some fd =>
        let s4 := { s3 with food := fd }
        match d.score.bind parseNum with
        | none => s4
        | some sc =>
          let s5 := { s4 with score := sc }
          match d.level_index.bind parseNum with
          | none => s5
          | some li =>
            let s6 := { s5 with level_index := li }
            match levelSpeed li with
            | none => s6
            | some sp =>
              { s6 with moves_per_second := sp, game_over := false, paused := false }

/-- Encoding of a cell as json.dump writes it. -/
def encodePos (p : Pos) : J := .arr [.num p.1, .num p.2]

/-- save_game: serialize the five session fields. -/
def save_game (s : GameState) : SaveData :=
  { snake := some (.arr (s.snake.map encodePos))
    direction := some (encodePos s.direction)
    food := some (encodePos s.food)
    score := some (.num s.score)
    level_index := some (.num s.level_index) }

/-- The session invariant of claim C3: non-empty duplicate-free snake,
food in bounds and off the snake. -/
def SessionInv (s : GameState) : Prop :=
  s.snake ≠ [] ∧ s.snake.Nodup ∧ inBoundsCell s.food ∧ s.food ∉ s.snake

/-- States reachable from reset via game ticks (as scheduled by on_update,
which skips ticks while paused or over), arrow keys and pause toggles. -/
inductive Reachable : GameState → Prop where
  | reset (storedHigh : Int) (rng : Nat → Nat × Nat) (fuel : Nat) (s : GameState)
      (h : reset_game storedHigh rng fuel = some s) : Reachable s
  | tick (s s' : GameState) (rng : Nat → Nat × Nat) (fuel : Nat)
      (hr : Reachable s) (hp : s.paused = false) (hg : s.game_over = false)
      (h : game_tick rng fuel s = some s') : Reachable s'
  | key (s : GameState) (k : ArrowKey) (hr : Reachable s) : Reachable (pressArrow s k)
  | pause (s : GameState) (hr : Reachable s) : Reachable (togglePause s)

/-! Helper lemmas. -/

/-- Every randint sample is an in-bounds cell. -/
theorem sample_inBounds (ab : Nat × Nat) : inBoundsCell (sample ab) := by
  obtain ⟨a, b⟩ := ab
  unfold inBoundsCell sample GRID_WIDTH GRID_HEIGHT
  refine ⟨?_, ?_, ?_, ?_⟩ <;> simp <;> omega

/-- A cell returned by the spawn loop is free and in bounds. -/
theorem spawn_aux_sound (snake : List Pos) (rng : Nat → Nat × Nat) :
    ∀ fuel i p, spawn_aux snake rng i fuel = some p → p ∉ snake ∧ inBoundsCell p := by
  intro fuel
  induction fuel with
  | zero => intro i p h; simp [spawn_aux] at h
  | succ n ih =>
    intro i p h
    rw [spawn_aux] at h
    by_cases hc : sample (rng i) ∈ snake
    · rw [if_pos hc] at h
      exact ih _ _ h
    · rw [if_neg hc] at h
      cases h
      exact ⟨hc, sample_inBounds _⟩

/-- A cell returned by spawn_food is free and in bounds. -/
theorem spawn_food_sound (snake : List Pos) (rng : Nat → Nat × Nat) (fuel : Nat) (p : Pos)
    (h : spawn_food snake rng fuel = some p) : p ∉ snake ∧ inBoundsCell p :=
  spawn_aux_sound snake rng fuel 0 p h

/-- check_level_up touches only level_index and moves_per_second. -/
theorem check_level_up_frame (s : GameState) :
    (check_level_up s).snake = s.snake ∧ (check_level_up s).direction = s.direction ∧
    (check_level_up s).food = s.food ∧ (check_level_up s).score = s.score ∧
    (check_level_up s).tick_accumulator = s.tick_accumulator ∧
    (check_level_up s).game_over = s.game_over ∧ (check_level_up s).paused = s.paused ∧
    (check_level_up s).highscore = s.highscore := by
  unfold check_level_up
  cases findLevel s.score with
  | none => simp
  | some idx =>
    by_cases h : (idx : Int) = s.level_index <;> simp [h]

/-- Membership from getLast?. -/
theorem mem_of_getLastSome {l : List Pos} {a : Pos} (h : l.getLast? = some a) : a ∈ l := by
  cases l with
  | nil => simp [List.getLast?] at h
  | cons b t =>
    rw [List.getLast?_eq_getLast _ (by simp)] at h
    have hm := List.getLast_mem (l := b :: t) (by simp)
    rw [Option.some.injEq] at h
    exact h ▸ hm

/-- Case analysis of a successful game_tick. -/
theorem game_tick_cases (rng : Nat → Nat × Nat) (fuel : Nat) (s s' : GameState)
    (hx hy : Int) (rest : List Pos) (hsn : s.snake = (hx, hy) :: rest)
    (h : game_tick rng fuel s = some s') :
    (collides (hx + s.direction.1, hy + s.direction.2) s.snake ∧
       s' = { s with game_over := true, highscore := max s.highscore s.score }) ∨
    (¬ collides (hx + s.direction.1, hy + s.direction.2) s.snake ∧
       (hx + s.direction.1, hy + s.direction.2) = s.food ∧
       ∃ f, spawn_food ((hx + s.direction.1, hy + s.direction.2) :: s.snake) rng fuel = some f ∧
         s' = check_level_up { s with snake := (hx + s.direction.1, hy + s.direction.2) :: s.snake,
                                      score := s.score + 10, food := f }) ∨
    (¬ collides (hx + s.direction.1, hy + s.direction.2) s.snake ∧
       (hx + s.direction.1, hy + s.direction.2) ≠ s.food ∧
       s' = { s with snake := ((hx + s.direction.1, hy + s.direction.2) :: s.snake).dropLast }) := by
  obtain ⟨sn, dir, fd, sc, li, mps, acc, go, pa, hi⟩ := s
  simp only at hsn
  subst hsn
  simp only [game_tick] at h
  by_cases hc : collides (hx + dir.1, hy + dir.2) ((hx, hy) :: rest)
  · rw [if_pos hc] at h
    injection h with h
    exact Or.inl ⟨hc, h.symm⟩
  · rw [if_neg hc] at h
    by_cases hf : (hx + dir.1, hy + dir.2) = fd
    · rw [if_pos hf] at h
      cases hsp : spawn_food ((hx + dir.1, hy + dir.2) :: (hx, hy) :: rest) rng fuel with
      | none => rw [hsp] at h; cases h
      | some f =>
        rw [hsp] at h
        injection h with h
        exact Or.inr (Or.inl ⟨hc, hf, f, rfl, h.symm⟩)
    · rw [if_neg hf] at h
      injection h with h
      exact Or.inr (Or.inr ⟨hc, hf, h.symm⟩)

/-- The collision branch fires exactly on `collides`, and produces the
game-over state. -/
theorem game_tick_collision (rng : Nat → Nat × Nat) (fuel : Nat) (s : GameState)
    (hx hy : Int) (rest : List Pos) (hsn : s.snake = (hx, hy) :: rest)
    (hc : collides (hx + s.direction.1, hy + s.direction.2) s.snake) :
    game_tick rng fuel s =
      some { s with game_over := true, highscore := max s.highscore s.score } := by
  obtain ⟨sn, dir, fd, sc, li, mps, acc, go, pa, hi⟩ := s
  simp only at hsn
  subst hsn
  simp only at hc
  simp only [game_tick]
  rw [if_pos hc]

/-- The source's collision disjunction is out-of-bounds-or-membership. -/
theorem collides_iff (a b : Int) (snake : List Pos) :
    collides (a, b) snake ↔ (¬ inBoundsCell (a, b) ∨ (a, b) ∈ snake) := by
  unfold collides inBoundsCell GRID_WIDTH GRID_HEIGHT
  by_cases hm : (a, b) ∈ snake
  · simp [hm]
  · simp [hm]
    omega

/-- A demo session: the reset state with food at the origin. -/
def demoState : GameState :=
  { snake := [((15 : Int), (10 : Int))], direction := (1, 0), food := (0, 0), score := 0,
    level_index := 0, moves_per_second := 5, tick_accumulator := 0,
    game_over := false, paused := false, highscore := 0 }

/-- Claim C1: collision is decided against the pre-move body: when the new
head (current head plus direction delta) equals the current tail cell, the
tick ends in GameOver, with no exception for the tail being vacated. -/
theorem C1_tail_cell_fatal (rng : Nat → Nat × Nat) (fuel : Nat) (s : GameState)
    (hx hy : Int) (hhead : s.snake.head? = some (hx, hy))
    (htail : s.snake.getLast? = some (hx + s.direction.1, hy + s.direction.2)) :
    ∃ s', game_tick rng fuel s = some s' ∧ s'.game_over = true := by
  obtain ⟨rest, hsn⟩ := List.head?_eq_some_iff.mp hhead
  have hmem := mem_of_getLastSome htail
  have hc : collides (hx + s.direction.1, hy + s.direction.2) s.snake :=
    (collides_iff _ _ _).mpr (Or.inr hmem)
  exact ⟨_, game_tick_collision rng fuel s hx hy rest hsn hc, rfl⟩

/-- Witness for C1: a 4-segment snake turning into its own tail cell. -/
theorem C1_tail_cell_fatal_witness :
    ∃ s', game_tick (fun _ => (0, 0)) 1
      { snake := [((5 : Int), (5 : Int)), ((6 : Int), (5 : Int)),
                  ((6 : Int), (6 : Int)), ((5 : Int), (6 : Int))],
        direction := (0, 1), food := (0, 0), score := 30, level_index := 0,
        moves_per_second := 5, tick_accumulator := 0, game_over := false,
        paused := false, highscore := 0 } = some s' ∧ s'.game_over = true :=
  C1_tail_cell_fatal (fun _ => (0, 0)) 1 _ 5 5 rfl rfl

/-- Claim C4: a colliding tick (out of bounds or on a pre-move snake cell)
transitions to GameOver and sets highscore to max(highscore, score). -/
theorem C4_collision_highscore (rng : Nat → Nat × Nat) (fuel : Nat) (s : GameState)
    (hx hy : Int) (rest : List Pos) (hsn : s.snake = (hx, hy) :: rest)
    (hcol : ¬ inBoundsCell (hx + s.direction.1, hy + s.direction.2) ∨
            (hx + s.direction.1, hy + s.direction.2) ∈ s.snake) :
    ∃ s', game_tick rng fuel s = some s' ∧ s'.game_over = true ∧
      s'.highscore = max s.highscore s.score := by
  have hc := (collides_iff (hx + s.direction.1) (hy + s.direction.2) s.snake).mpr hcol
  exact ⟨_, game_tick_collision rng fuel s hx hy rest hsn hc, rfl, rfl⟩

/-- Witness for C4: the spec scenario snake=[(0,10)], direction=(-1,0). -/
theorem C4_collision_highscore_witness :
    ∃ s', game_tick (fun _ => (0, 0)) 1
      { demoState with snake := [((0 : Int), (10 : Int))], direction := (-1, 0),
                       score := 10, highscore := 3 } = some s' ∧
      s'.game_over = true ∧ s'.highscore = max 3 10 :=
  C4_collision_highscore (fun _ => (0, 0)) 1 _ 0 10 [] rfl (Or.inl (by decide))

/-- Claim C10: a colliding tick leaves every field other than game_over and
highscore unchanged. -/
theorem C10_collision_frame (rng : Nat → Nat × Nat) (fuel : Nat) (s : GameState)
    (hx hy : Int) (rest : List Pos) (hsn : s.snake = (hx, hy) :: rest)
    (hcol : ¬ inBoundsCell (hx + s.direction.1, hy + s.direction.2) ∨
            (hx + s.direction.1, hy + s.direction.2) ∈ s.snake) :
    ∃ s', game_tick rng fuel s = some s' ∧ s'.snake = s.snake ∧
      s'.direction = s.direction ∧ s'.food = s.food ∧ s'.score = s.score ∧
      s'.level_index = s.level_index ∧ s'.moves_per_second = s.moves_per_second ∧
      s'.tick_accumulator = s.tick_accumulator ∧ s'.paused = s.paused := by
  have hc := (collides_iff (hx + s.direction.1) (hy + s.direction.2) s.snake).mpr hcol
  exact ⟨_, game_tick_collision rng fuel s hx hy rest hsn hc,
    rfl, rfl, rfl, rfl, rfl, rfl, rfl, rfl⟩

/-- Witness for C10. -/
theorem C10_collision_frame_witness :
    ∃ s', game_tick (fun _ => (0, 0)) 1
      { demoState with snake := [((0 : Int), (10 : Int))], direction := (-1, 0) }
        = some s' ∧
      s'.snake = [((0 : Int), (10 : Int))] ∧ s'.direction = (-1, 0) ∧
      s'.food = (0, 0) ∧ s'.score = 0 ∧ s'.level_index = 0 ∧
      s'.moves_per_second = 5 ∧ s'.tick_accumulator = 0 ∧ s'.paused = false :=
  C10_collision_frame (fun _ => (0, 0)) 1 _ 0 10 [] rfl (Or.inl (by decide))

/-- Claim C2: a non-colliding tick puts the new head first and the snake
keeps its length, or grows by one exactly when the new head is the food. -/
theorem C2_advance_shape (rng : Nat → Nat × Nat) (fuel : Nat) (s s' : GameState)
    (hx hy : Int) (rest : List Pos) (hsn : s.snake = (hx, hy) :: rest)
    (hin : inBoundsCell (hx + s.direction.1, hy + s.direction.2))
    (hnm : (hx + s.direction.1, hy + s.direction.2) ∉ s.snake)
    (h : game_tick rng fuel s = some s') :
    s'.snake.head? = some (hx + s.direction.1, hy + s.direction.2) ∧
    s'.snake.length =
      (if (hx + s.direction.1, hy + s.direction.2) = s.food
       then s.snake.length + 1 else s.snake.length) := by
  have hnc : ¬ collides (hx + s.direction.1, hy + s.direction.2) s.snake := by
    rw [collides_iff]
    rintro (hb | hm)
    · exact hb hin
    · exact hnm hm
  rcases game_tick_cases rng fuel s s' hx hy rest hsn h with
      ⟨hc, _⟩ | ⟨_, hf, f, hsp, hs'⟩ | ⟨_, hf, hs'⟩
  · exact absurd hc hnc
  · subst hs'
    have hframe := check_level_up_frame
      { s with snake := (hx + s.direction.1, hy + s.direction.2) :: s.snake,
               score := s.score + 10, food := f }
    rw [if_pos hf]
    refine ⟨?_, ?_⟩
    · rw [hframe.1]
      exact rfl
    · rw [hframe.1]
      simp
  · subst hs'
    rw [if_neg hf]
    refine ⟨?_, ?_⟩
    · rw [hsn]
      simp
    · rw [hsn]
      simp

/-- Witness for C2: one straight non-eating move from the reset state. -/
theorem C2_advance_shape_witness :
    ({ demoState with snake := [((16 : Int), (10 : Int))] } : GameState).snake.head? =
        some (15 + demoState.direction.1, 10 + demoState.direction.2) ∧
    ({ demoState with snake := [((16 : Int), (10 : Int))] } : GameState).snake.length =
      (if (15 + demoState.direction.1, 10 + demoState.direction.2) = demoState.food
       then demoState.snake.length + 1 else demoState.snake.length) :=
  C2_advance_shape (fun _ => (0, 0)) 1 demoState _ 15 10 [] rfl (by decide) (by decide) rfl

/-- Claim C8: the handler adopts any requested direction that is not the
exact reverse of the current one, and ignores the exact reverse. -/
theorem C8_direction_change (cur : Pos) (k : ArrowKey) :
    (keyDir k ≠ negPos cur → dirAfterKey cur k = keyDir k) ∧
    (keyDir k = negPos cur → dirAfterKey cur k = cur) := by
  obtain ⟨cx, cy⟩ := cur
  constructor
  · intro hne
    cases k <;>
      simp only [keyDir, dirAfterKey, negPos, ne_eq, Prod.mk.injEq] at hne ⊢ <;>
      (split
       · rfl
       · exfalso
         rename_i hcc
         rw [not_not] at hcc
         exact hne ⟨by omega, by omega⟩)
  · intro he
    cases k <;>
      simp only [keyDir, dirAfterKey, negPos, ne_eq, Prod.mk.injEq] at he ⊢ <;>
      (obtain ⟨h1, h2⟩ := he
       split
       · exfalso
         rename_i hcc
         exact hcc ⟨by omega, by omega⟩
       · rfl)

/-- Witness for C8: moving right, UP is adopted and LEFT is ignored. -/
theorem C8_direction_change_witness :
    dirAfterKey (1, 0) ArrowKey.up = keyDir ArrowKey.up ∧
    dirAfterKey (1, 0) ArrowKey.left = (1, 0) :=
  ⟨(C8_direction_change (1, 0) ArrowKey.up).1 (by decide),
   (C8_direction_change (1, 0) ArrowKey.left).2 (by decide)⟩

/-- Closed form of the level scan. -/
theorem findLevel_eq (x : Int) : findLevel x =
    if 150 ≤ x then some 3 else if 100 ≤ x then some 2
    else if 50 ≤ x then some 1 else if 0 ≤ x then some 0 else none := by
  have h4 : (List.range LEVELS.length).reverse = [3, 2, 1, 0] := by decide
  unfold findLevel
  rw [h4]
  simp only [List.find?, LEVELS, List.getD, List.get?_cons_succ, List.get?_cons_zero,
    Option.getD_some]
  by_cases c3 : 150 ≤ x
  · rw [decide_eq_true c3, if_pos c3]
  · rw [decide_eq_false c3, if_neg c3]
    by_cases c2 : 100 ≤ x
    · rw [decide_eq_true c2, if_pos c2]
    · rw [decide_eq_false c2, if_neg c2]
      by_cases c1 : 50 ≤ x
      · rw [decide_eq_true c1, if_pos c1]
      · rw [decide_eq_false c1, if_neg c1]
        by_cases c0 : 0 ≤ x
        · rw [decide_eq_true c0, if_pos c0]
        · rw [decide_eq_false c0, if_neg c0]

/-- Claim C7: for every non-negative score the scan returns the highest
index whose threshold is at or below the score; the result is monotone in
the score and is 0 at score 0. -/
theorem C7_level_lookup (score : Int) (h0 : 0 ≤ score) :
    (∃ i, findLevel score = some i ∧ i < LEVELS.length ∧
       (LEVELS.getD i ((0 : Int), (0 : Int))).1 ≤ score ∧
       ∀ j, j < LEVELS.length → (LEVELS.getD j ((0 : Int), (0 : Int))).1 ≤ score → j ≤ i) ∧
    (∀ t i j, score ≤ t → findLevel score = some i → findLevel t = some j → i ≤ j) ∧
    findLevel 0 = some 0 := by
  have t0 : (LEVELS.getD 0 ((0 : Int), (0 : Int))).1 = 0 := rfl
  have t1 : (LEVELS.getD 1 ((0 : Int), (0 : Int))).1 = 50 := rfl
  have t2 : (LEVELS.getD 2 ((0 : Int), (0 : Int))).1 = 100 := rfl
  have t3 : (LEVELS.getD 3 ((0 : Int), (0 : Int))).1 = 150 := rfl
  refine ⟨?_, ?_, by rw [findLevel_eq]; norm_num⟩
  · rw [findLevel_eq]
    by_cases c3 : 150 ≤ score
    · rw [if_pos c3]
      refine ⟨3, rfl, by decide, by rw [t3]; exact c3, ?_⟩
      intro j hj hle
      simp only [LEVELS, List.length_cons, List.length_nil] at hj
      omega
    · rw [if_neg c3]
      by_cases c2 : 100 ≤ score
      · rw [if_pos c2]
        refine ⟨2, rfl, by decide, by rw [t2]; exact c2, ?_⟩
        intro j hj hle
        simp only [LEVELS, List.length_cons, List.length_nil] at hj
        interval_cases j
        · omega
        · omega
        · omega
        · rw [t3] at hle; omega
      · rw [if_neg c2]
        by_cases c1 : 50 ≤ score
        · rw [if_pos c1]
          refine ⟨1, rfl, by decide, by rw [t1]; exact c1, ?_⟩
          intro j hj hle
          simp only [LEVELS, List.length_cons, List.length_nil] at hj
          interval_cases j
          · omega
          · omega
          · rw [t2] at hle; omega
          · rw [t3] at hle; omega
        · rw [if_neg c1, if_pos h0]
          refine ⟨0, rfl, by decide, by rw [t0]; exact h0, ?_⟩
          intro j hj hle
          simp only [LEVELS, List.length_cons, List.length_nil] at hj
          interval_cases j
          · omega
          · rw [t1] at hle; omega
          · rw [t2] at hle; omega
          · rw [t3] at hle; omega
  · intro t i j hst hi hj
    rw [findLevel_eq] at hi hj
    split_ifs at hi hj <;> simp_all <;> omega

/-- Witness for C7 at score 120 (level index 2). -/
theorem C7_level_lookup_witness :
    (∃ i, findLevel 120 = some i ∧ i < LEVELS.length ∧
       (LEVELS.getD i ((0 : Int), (0 : Int))).1 ≤ 120 ∧
       ∀ j, j < LEVELS.length → (LEVELS.getD j ((0 : Int), (0 : Int))).1 ≤ 120 → j ≤ i) ∧
    (∀ t i j, (120 : Int) ≤ t → findLevel 120 = some i → findLevel t = some j → i ≤ j) ∧
    findLevel 0 = some 0 :=
  C7_level_lookup 120 (by decide)

/-- Decoding inverts the cell encoding. -/
theorem parsePos_encodePos (p : Pos) : parsePos (encodePos p) = some p := by
  obtain ⟨a, b⟩ := p
  rfl

/-- Decoding inverts the snake encoding. -/
theorem parseSnake_encode (l : List Pos) :
    parseSnake (J.arr (l.map encodePos)) = some l := by
  induction l with
  | nil => rfl
  | cons p tl ih =>
    simp only [parseSnake, List.map_cons] at ih ⊢
    rw [parseCells, parsePos_encodePos, ih]

/-- Claim C6: loading the record saved from session s reproduces s's snake,
direction, food, score and level index, recomputes the speed from the level
index, and clears the game-over and paused flags. -/
theorem C6_roundtrip (s t : GameState) (h0 : 0 ≤ s.level_index) (h4 : s.level_index < 4) :
    load_game (save_game s) t =
      { t with snake := s.snake, direction := s.direction, food := s.food,
               score := s.score, level_index := s.level_index,
               moves_per_second := (LEVELS.getD s.level_index.toNat ((0 : Int), (0 : Int))).2,
               game_over := false, paused := false } := by
  unfold load_game save_game
  simp only [Option.some_bind, parseSnake_encode, parsePos_encodePos, parseNum,
    levelSpeed, if_pos (And.intro h0 h4)]

/-- Witness for C6: round trip at a level-1 session into a paused target. -/
theorem C6_roundtrip_witness :
    load_game (save_game { demoState with score := 60, level_index := 1 })
        { demoState with paused := true, highscore := 7 } =
      { { demoState with paused := true, highscore := 7 } with
          snake := ({ demoState with score := 60, level_index := 1 } : GameState).snake,
          direction := ({ demoState with score := 60, level_index := 1 } : GameState).direction,
          food := ({ demoState with score := 60, level_index := 1 } : GameState).food,
          score := ({ demoState with score := 60, level_index := 1 } : GameState).score,
          level_index := ({ demoState with score := 60, level_index := 1 } : GameState).level_index,
          moves_per_second :=
            (LEVELS.getD (({ demoState with score := 60, level_index := 1 } : GameState).level_index).toNat
              ((0 : Int), (0 : Int))).2,
          game_over := false, paused := false } :=
  C6_roundtrip { demoState with score := 60, level_index := 1 }
    { demoState with paused := true, highscore := 7 } (by decide) (by decide)

/-- Claim C5 (refuted): a record with a valid snake but a missing direction
key makes load_game fail only after it has already overwritten the live
snake, so a failed load does not leave every session field unchanged. -/
theorem C5_load_partial_mutation :
    load_game { snake := some (J.arr [J.arr [J.num 1, J.num 1]]), direction := none,
                food := none, score := none, level_index := none } demoState =
      { demoState with snake := [((1 : Int), (1 : Int))] } ∧
    { demoState with snake := [((1 : Int), (1 : Int))] } ≠ demoState := by
  constructor
  · rfl
  · decide

/-- The constant stream resampling the occupied origin never leaves the
spawn loop, whatever the fuel. -/
theorem spawn_aux_const_none :
    ∀ fuel i, spawn_aux [((0 : Int), (0 : Int))] (fun _ => (0, 0)) i fuel = none := by
  intro fuel
  induction fuel with
  | zero => intro i; rfl
  | succ n ih =>
    intro i
    rw [spawn_aux]
    rw [if_pos (by simp [sample])]
    exact ih _

/-- Counterexample to C9: the one-segment snake at the origin leaves 599
free cells, yet for the constant random stream that always samples the
origin the spawn loop never terminates. -/
theorem C9_counterexample :
    ¬ ∃ fuel p, spawn_food [((0 : Int), (0 : Int))] (fun _ => (0, 0)) fuel = some p := by
  rintro ⟨fuel, p, h⟩
  rw [spawn_food, spawn_aux_const_none] at h
  cases h

/-- Claim C9 as amended: whenever some sample of the stream is a free cell
(as happens with probability one for fair sampling while a free cell
exists), the spawn loop terminates and returns a free in-bounds cell. -/
theorem C9_spawn_terminates (snake : List Pos) (rng : Nat → Nat × Nat)
    (h : ∃ n, sample (rng n) ∉ snake) :
    ∃ fuel p, spawn_food snake rng fuel = some p ∧ p ∉ snake ∧ inBoundsCell p := by
  obtain ⟨n, hn⟩ := h
  have key : ∀ m i, sample (rng (i + m)) ∉ snake →
      ∃ p, spawn_aux snake rng i (m + 1) = some p := by
    intro m
    induction m with
    | zero =>
      intro i hi
      rw [Nat.add_zero] at hi
      rw [spawn_aux, if_neg hi]
      exact ⟨_, rfl⟩
    | succ k ih =>
      intro i hi
      rw [spawn_aux]
      by_cases hc : sample (rng i) ∈ snake
      · rw [if_pos hc]
        refine ih (i + 1) ?_
        have he : i + 1 + k = i + (k + 1) := by omega
        rw [he]
        exact hi
      · rw [if_neg hc]
        exact ⟨_, rfl⟩
  obtain ⟨p, hp⟩ := key n 0 (by simpa using hn)
  have hs := spawn_food_sound snake rng (n + 1) p hp
  exact ⟨n + 1, p, hp, hs.1, hs.2⟩

/-- Witness for the amended C9: a stream whose first sample is free. -/
theorem C9_spawn_terminates_witness :
    ∃ fuel p, spawn_food [((0 : Int), (0 : Int))] (fun _ => (1, 1)) fuel = some p ∧
      p ∉ [((0 : Int), (0 : Int))] ∧ inBoundsCell p :=
  C9_spawn_terminates _ _ ⟨0, by decide⟩

/-- The reset state satisfies the session invariant. -/
theorem reset_game_inv (storedHigh : Int) (rng : Nat → Nat × Nat) (fuel : Nat) (s : GameState)
    (h : reset_game storedHigh rng fuel = some s) : SessionInv s := by
  unfold reset_game at h
  cases hsp : spawn_food [((15 : Int), (10 : Int))] rng fuel with
  | none => rw [hsp] at h; cases h
  | some f =>
    rw [hsp] at h
    obtain ⟨hf, hb⟩ := spawn_food_sound _ _ _ _ hsp
    simp only [Option.map_some'] at h
    injection h with h
    subst h
    exact ⟨by simp, by simp, hb, by simpa using hf⟩

/-- One successful tick preserves the session invariant. -/
theorem game_tick_inv (rng : Nat → Nat × Nat) (fuel : Nat) (s s' : GameState)
    (hI : SessionInv s) (h : game_tick rng fuel s = some s') : SessionInv s' := by
  obtain ⟨hne, hnd, hfb, hfm⟩ := hI
  cases hsn : s.snake with
  | nil => exact absurd hsn hne
  | cons hd rest =>
    obtain ⟨hx, hy⟩ := hd
    rcases game_tick_cases rng fuel s s' hx hy rest hsn h with
        ⟨hc, hs'⟩ | ⟨hnc, hf, f, hsp, hs'⟩ | ⟨hnc, hf, hs'⟩
    · subst hs'
      exact ⟨hne, hnd, hfb, hfm⟩
    · subst hs'
      have hnm : (hx + s.direction.1, hy + s.direction.2) ∉ s.snake := fun hmem =>
        hnc ((collides_iff _ _ _).mpr (Or.inr hmem))
      obtain ⟨hfree, hbnd⟩ := spawn_food_sound _ _ _ _ hsp
      have hframe := check_level_up_frame
        { s with snake := (hx + s.direction.1, hy + s.direction.2) :: s.snake,
                 score := s.score + 10, food := f }
      refine ⟨?_, ?_, ?_, ?_⟩
      · rw [hframe.1]
        simp
      · rw [hframe.1]
        exact List.nodup_cons.mpr ⟨hnm, hnd⟩
      · rw [hframe.2.2.1]
        exact hbnd
      · rw [hframe.2.2.1, hframe.1]
        exact hfree
    · subst hs'
      have hnm : (hx + s.direction.1, hy + s.direction.2) ∉ s.snake := fun hmem =>
        hnc ((collides_iff _ _ _).mpr (Or.inr hmem))
      refine ⟨?_, ?_, ?_, ?_⟩
      · show ((hx + s.direction.1, hy + s.direction.2) :: s.snake).dropLast ≠ []
        rw [hsn]
        simp
      · show ((hx + s.direction.1, hy + s.direction.2) :: s.snake).dropLast.Nodup
        exact List.Nodup.sublist (List.dropLast_sublist _)
          (List.nodup_cons.mpr ⟨hnm, hnd⟩)
      · exact hfb
      · show s.food ∉ ((hx + s.direction.1, hy + s.direction.2) :: s.snake).dropLast
        intro hmem
        have hmem2 := (List.dropLast_sublist _).subset hmem
        rcases List.mem_cons.mp hmem2 with he | hm
        · exact hf (he.symm)
        · exact hfm hm

/-- Claim C3: every session state reachable from reset via ticks, direction
changes and pause toggles has a non-empty duplicate-free snake and an
in-bounds food cell disjoint from the snake. -/
theorem C3_reachable_invariant (s : GameState) (h : Reachable s) : SessionInv s := by
  induction h with
  | reset storedHigh rng fuel s h => exact reset_game_inv storedHigh rng fuel s h
  | tick s s' rng fuel hr hp hg h ih => exact game_tick_inv rng fuel s s' ih h
  | key s k hr ih => exact ih
  | pause s hr ih => exact ih

/-- Witness for C3: the concrete state produced by a reset whose spawn
stream starts at the free origin cell. -/
theorem C3_reachable_invariant_witness : SessionInv demoState :=
  C3_reachable_invariant demoState (Reachable.reset 0 (fun _ => (0, 0)) 1 demoState rfl)
